import Mathlib

/-!
# Verification of `extract_house_sales.py`

A shallow embedding of the house-sales extraction script
(`src/extract_house_sales.py`) together with theorems checking its
natural-language specification.

The script reads an HTML file, parses it with BeautifulSoup, extracts
label/content basic-info pairs and a table of per-unit rows, derives
aggregate statistics, and saves the result as JSON or a text report.

Modelling conventions:
* HTML documents are element trees (`Node`); a parsed soup is the list of
  top-level nodes (`NodeList`).  BeautifulSoup's `html.parser` backend is
  lenient and never raises, so parsing itself is not modelled as fallible;
  file I/O is modelled by `Except`-valued inputs/outputs.
* Python strings are Lean `String`s; `str.strip`, `in`, `str.replace`,
  `str.endswith` and `float(...)` are re-implemented below on `List Char`
  by structural recursion (`pyStrip`, `pyIn`, `pyRemoveAll`, `pyEndsWith`,
  `pyFloatSci`) so that concrete runs reduce inside the kernel.
* Python `float` values are modelled exactly in `ℚ`; `pyFloatSci` models
  `float(...)` on plain decimal/scientific literals (the forms occurring
  in area cells); exotic inputs (`inf`, `nan`, underscores, hex) are
  outside the modelled domain and treated as parse failures.
* Python dicts with the fixed key sets used by the script are modelled as
  structures of `Option String` fields; a missing key is `none`.
-/

/-! ## Python string primitives -/

/-- Model of Python `str.strip()` (no arguments): remove leading and
trailing whitespace characters. -/
def pyStrip (s : String) : String :=
  ⟨((s.toList.dropWhile Char.isWhitespace).reverse.dropWhile Char.isWhitespace).reverse⟩

/-- `charsHasPre needle hay`: `needle` occurs at the start of `hay`. -/
def charsHasPre : List Char → List Char → Bool
  | [], _ => true
  | _ :: _, [] => false
  | a :: as, b :: bs => a == b && charsHasPre as bs

/-- `charsInfix needle hay`: `needle` occurs contiguously somewhere in `hay`. -/
def charsInfix : List Char → List Char → Bool
  | needle, [] => needle.isEmpty
  | needle, c :: t => charsHasPre needle (c :: t) || charsInfix needle t

/-- Model of Python's `needle in hay` substring test. -/
def pyIn (needle hay : String) : Bool :=
  charsInfix needle.toList hay.toList

/-- Model of Python `s.endswith(suffix)`. -/
def pyEndsWith (s suf : String) : Bool :=
  charsHasPre suf.toList.reverse s.toList.reverse

/-- Fuel-indexed worker for `pyRemoveAll`; the fuel (initially the length
of the subject) bounds the number of steps, each of which consumes at
least one character, so it never runs out on the initial call. -/
def removeAllAux (pat : List Char) : Nat → List Char → List Char
  | _, [] => []
  | 0, l => l
  | fuel + 1, c :: t =>
      if charsHasPre pat (c :: t) then removeAllAux pat fuel (t.drop (pat.length - 1))
      else c :: removeAllAux pat fuel t

/-- Model of Python `s.replace(pat, "")` (delete every non-overlapping
occurrence of `pat`, scanning left to right) for non-empty `pat`. -/
def pyRemoveAll (pat s : String) : String :=
  if pat.isEmpty then s else ⟨removeAllAux pat.toList s.toList.length s.toList⟩

/-! ## Python `float(...)` on decimal literals -/

/-- Numeric value of a list of decimal digit characters. -/
def digitsToNat (ds : List Char) : Nat :=
  ds.foldl (fun acc c => 10 * acc + (c.toNat - '0'.toNat)) 0

/-- Parse an unsigned decimal mantissa (`digits`, `digits.digits`,
`digits.`, `.digits`), returning the digits as an integer together with a
power-of-ten shift, plus the unconsumed remainder of the input. -/
def parseMantissa (cs : List Char) : Option ((Int × Int) × List Char) :=
  let ds := cs.takeWhile Char.isDigit
  let r1 := cs.dropWhile Char.isDigit
  match r1 with
  | '.' :: r2 =>
      let fs := r2.takeWhile Char.isDigit
      let r3 := r2.dropWhile Char.isDigit
      if ds.isEmpty && fs.isEmpty then none
      else some ((Int.ofNat (digitsToNat (ds ++ fs)), -(Int.ofNat fs.length)), r3)
  | _ => if ds.isEmpty then none else some ((Int.ofNat (digitsToNat ds), 0), r1)

/-- Parse an optional exponent part (`e`/`E`, optional sign, digits) that
must consume the whole remainder; returns the signed exponent. -/
def parseExpPart (cs : List Char) : Option Int :=
  match cs with
  | [] => some 0
  | c :: r =>
      if c == 'e' || c == 'E' then
        let (pos, r2) : Bool × List Char :=
          match r with
          | '+' :: t => (true, t)
          | '-' :: t => (false, t)
          | t => (true, t)
        let ds := r2.takeWhile Char.isDigit
        let r3 := r2.dropWhile Char.isDigit
        if ds.isEmpty || !r3.isEmpty then none
        else some (if pos then Int.ofNat (digitsToNat ds) else -(Int.ofNat (digitsToNat ds)))
      else none

/-- Model of Python `float(s)` on plain decimal/scientific literals,
returned in exact scientific form: `some (m, e)` stands for `m * 10 ^ e`;
`none` models a raised `ValueError`. -/
def pyFloatSci (s : String) : Option (Int × Int) :=
  let cs := (pyStrip s).toList
  let (sgn, cs1) : Int × List Char :=
    match cs with
    | '+' :: t => (1, t)
    | '-' :: t => (-1, t)
    | t => (1, t)
  match parseMantissa cs1 with
  | none => none
  | some ((m, shift), r) =>
      match parseExpPart r with
      | none => none
      | some e => some (sgn * m, shift + e)

/-- The exact rational value of a scientific-form float. -/
def sciToRat (p : Int × Int) : ℚ :=
  (p.1 : ℚ) * (10 : ℚ) ^ p.2

/-! ## The document model -/

mutual
/-- One node of the parsed HTML tree: an element with a tag name, the
tokens of its `class` attribute, and children, or a text node. -/
inductive Node where
  | elem (tag : String) (classes : List String) (children : NodeList)
  | text (s : String)
deriving Repr
/-- A sequence of sibling nodes (a mutually inductive copy of `List Node`,
so that recursion over the tree stays structural). -/
inductive NodeList where
  | nil
  | cons (head : Node) (tail : NodeList)
deriving Repr
end

/-- View a sibling sequence as an ordinary list. -/
def NodeList.toList : NodeList → List Node
  | .nil => []
  | .cons c t => c :: t.toList

/-- A parsed soup: the sequence of top-level nodes of the document. -/
abbrev Soup := NodeList

mutual
/-- All descendants of a node in document (preorder) order, the node
itself excluded — the iteration order of BeautifulSoup's `find_all`. -/
def nodeDescendants : Node → List Node
  | .text _ => []
  | .elem _ _ cs => listDescendants cs
/-- All nodes of a sibling sequence and their descendants, in document
order. -/
def listDescendants : NodeList → List Node
  | .nil => []
  | .cons c t => c :: (nodeDescendants c ++ listDescendants t)
end

mutual
/-- The raw text fragments below a node, in document order. -/
def nodeFragments : Node → List String
  | .text s => [s]
  | .elem _ _ cs => listFragments cs
/-- The raw text fragments below a sibling sequence, in document order. -/
def listFragments : NodeList → List String
  | .nil => []
  | .cons c t => nodeFragments c ++ listFragments t
end

/-- Model of BeautifulSoup `get_text(strip=True)`: each text fragment is
stripped of surrounding whitespace and the results are concatenated. -/
def getTextStrip (n : Node) : String :=
  String.join ((nodeFragments n).map pyStrip)

/-- The element's tag equals `t`. -/
def hasTag (t : String) : Node → Bool
  | .elem tg _ _ => tg == t
  | .text _ => false

/-- The class tokens of a node (empty for text nodes). -/
def classList : Node → List String
  | .elem _ cs _ => cs
  | .text _ => []

/-- The filter `soup.find_all('span', class_=lambda x: x and
'el-descriptions-item__label' in x)`: a `span` one of whose class tokens
contains the label marker as a substring. -/
def isLabelSpan (n : Node) : Bool :=
  hasTag "span" n && (classList n).any (fun c => pyIn "el-descriptions-item__label" c)

/-- The filter used by `label.find_next_sibling('span', class_=lambda x:
x and 'el-descriptions-item__content' in x)`. -/
def isContentSpan (n : Node) : Bool :=
  hasTag "span" n && (classList n).any (fun c => pyIn "el-descriptions-item__content" c)

/-- The filter `soup.find_all('tr', class_='el-table__row')`: a `tr`
whose class tokens include exactly `el-table__row`. -/
def isTableRow (n : Node) : Bool :=
  hasTag "tr" n && (classList n).contains "el-table__row"

/-- The filter `row.find_all('td', class_='el-table__cell')`. -/
def isTableCell (n : Node) : Bool :=
  hasTag "td" n && (classList n).contains "el-table__cell"

/-- The filter `cell.find('div', class_='cell')`. -/
def isCellDiv (n : Node) : Bool :=
  hasTag "div" n && (classList n).contains "cell"

/-- The filter `soup.find('title')`. -/
def isTitleTag (n : Node) : Bool :=
  hasTag "title" n

/-! ## Basic info extraction -/

/-- The `basic_info` dict; the Lean field names stand for the script's
fixed Chinese keys: `projectName` = 项目名称, `location` = 房屋坐落,
`salesArea` = 销售面积, `licensedUse` = 销售许可证证载用途,
`permitNo` = 许可证号.  A missing key is `none`. -/
structure BasicInfo where
  projectName : Option String := none
  location : Option String := none
  salesArea : Option String := none
  licensedUse : Option String := none
  permitNo : Option String := none
deriving Repr, DecidableEq

/-- The five recognized basic-info keys, in the order of the script's
`if`/`elif` chain. -/
inductive FieldKey where
  | projectName | location | salesArea | licensedUse | permitNo
deriving Repr, DecidableEq

/-- Read one key of the `basic_info` dict. -/
def getField (b : BasicInfo) : FieldKey → Option String
  | .projectName => b.projectName
  | .location => b.location
  | .salesArea => b.salesArea
  | .licensedUse => b.licensedUse
  | .permitNo => b.permitNo

/-- Write one key of the `basic_info` dict. -/
def setField (b : BasicInfo) (k : FieldKey) (v : String) : BasicInfo :=
  match k with
  | .projectName => { b with projectName := some v }
  | .location => { b with location := some v }
  | .salesArea => { b with salesArea := some v }
  | .licensedUse => { b with licensedUse := some v }
  | .permitNo => { b with permitNo := some v }

/-- The script's `if`/`elif` chain over a label's stripped text: the
first key, in chain order, whose Chinese name occurs in the text as a
substring; `none` if no name occurs. -/
def fieldOfLabel (t : String) : Option FieldKey :=
  if pyIn "项目名称" t then some .projectName
  else if pyIn "房屋坐落" t then some .location
  else if pyIn "销售面积" t then some .salesArea
  else if pyIn "销售许可证证载用途" t then some .licensedUse
  else if pyIn "许可证号" t then some .permitNo
  else none

/-- The `(needle, key)` pairs of the chain, in chain order. -/
def fieldTable : List (String × FieldKey) :=
  [("项目名称", .projectName), ("房屋坐落", .location), ("销售面积", .salesArea),
   ("销售许可证证载用途", .licensedUse), ("许可证号", .permitNo)]

mutual
/-- Label/content pairs contributed by one node's subtree (document
order): the node's own children sequence is scanned by `listPairs`. -/
def nodePairs : Node → List (String × Option String)
  | .text _ => []
  | .elem _ _ cs => listPairs cs
/-- Label/content pairs of a sibling sequence, in the document order in
which `soup.find_all(...)` yields the label spans.  For a label at the
head, the paired content is `label.find_next_sibling(...)`: the first
later sibling that is a content-marked span (`none` if there is none). -/
def listPairs : NodeList → List (String × Option String)
  | .nil => []
  | .cons c rest =>
      (if isLabelSpan c then
        [(getTextStrip c, (rest.toList.find? isContentSpan).map getTextStrip)]
      else [])
      ++ (nodePairs c ++ listPairs rest)
end

/-- One iteration of the label loop: a label whose content sibling exists
writes its matched key (if any); a label without a content sibling is
skipped. -/
def applyPair (b : BasicInfo) (p : String × Option String) : BasicInfo :=
  match p.2 with
  | none => b
  | some v =>
      match fieldOfLabel p.1 with
      | some k => setField b k v
      | none => b

/-- The whole label loop. -/
def applyPairs (b : BasicInfo) (l : List (String × Option String)) : BasicInfo :=
  l.foldl applyPair b

/-- The `basic_info` dict after the label loop, before the title
fallback. -/
def primaryBasic (soup : Soup) : BasicInfo :=
  applyPairs {} (listPairs soup)

/-- The stripped text of `soup.find('title')`, when a title element
exists. -/
def titleText (soup : Soup) : Option String :=
  ((listDescendants soup).find? isTitleTag).map getTextStrip

/-- The title fallback for the project name: runs only when the key is
still missing; requires the fixed phrase to occur in the title text, then
uses the stripped remainder after deleting the phrase, if non-empty. -/
def fallbackTitle (soup : Soup) (b : BasicInfo) : BasicInfo :=
  if b.projectName.isSome then b
  else
    match titleText soup with
    | none => b
    | some tt =>
        if pyIn "商品房销售许可证信息" tt then
          let pn := pyStrip (pyRemoveAll "商品房销售许可证信息" tt)
          if pn = "" then b else { b with projectName := some pn }
        else b

/-- The final `basic_info` dict. -/
def basicFinal (soup : Soup) : BasicInfo :=
  fallbackTitle soup (primaryBasic soup)

/-! ## Unit table extraction -/

/-- One `house_info` dict; the Lean field names stand for the script's
keys: `roomNo` = 房间号, `area` = 建筑面积, `price` = 申报销售单价,
`sold` = 是否出售, `mortgage` = 是否抵押. -/
structure HouseInfo where
  roomNo : Option String := none
  area : Option String := none
  price : Option String := none
  sold : Option String := none
  mortgage : Option String := none
deriving Repr, DecidableEq

/-- The cells of a row: `row.find_all('td', class_='el-table__cell')`. -/
def rowCells (row : Node) : List Node :=
  (nodeDescendants row).filter isTableCell

/-- The stripped text of the `div.cell` wrapper of cell `i`, when both
the cell and its wrapper exist (`cells[i].find('div', class_='cell')`). -/
def cellText (cells : List Node) (i : Nat) : Option String :=
  match cells[i]? with
  | none => none
  | some cell => ((nodeDescendants cell).find? isCellDiv).map getTextStrip

/-- The body of the row loop: rows with fewer than 5 marker cells are
skipped; otherwise the five positional fields are read (each omitted when
its `div.cell` wrapper is absent) and the row is kept only when the
resulting room number is a non-empty string. -/
def rowToHouse (row : Node) : Option HouseInfo :=
  let cells := rowCells row
  if 5 ≤ cells.length then
    let h : HouseInfo :=
      { roomNo := cellText cells 0
        area := cellText cells 1
        price := cellText cells 2
        sold := cellText cells 3
        mortgage := cellText cells 4 }
    match h.roomNo with
    | some s => if s = "" then none else some h
    | none => none
  else none

/-- The retained unit sequence `house_details`. -/
def houseDetails (soup : Soup) : List HouseInfo :=
  ((listDescendants soup).filter isTableRow).filterMap rowToHouse

/-! ## Statistics -/

/-- `len([h for h in house_details if h.get('是否出售') == '已售'])`. -/
def countSold (hs : List HouseInfo) : Nat :=
  (hs.filter (fun h => h.sold == some "已售")).length

/-- `len([h for h in house_details if h.get('是否抵押') == '是'])`. -/
def countMortgaged (hs : List HouseInfo) : Nat :=
  (hs.filter (fun h => h.mortgage == some "是")).length

/-- The contribution of one area text to `total_area`: empty text is
skipped; if the marker 平方米 occurs anywhere, every occurrence is deleted
before parsing; a `ValueError` from `float(...)` is swallowed and the
unit contributes zero. -/
def areaContribution (t : String) : ℚ :=
  if t = "" then 0
  else
    match pyFloatSci (if pyIn "平方米" t then pyRemoveAll "平方米" t else t) with
    | some p => sciToRat p
    | none => 0

/-- The area contribution of one unit (`house.get('建筑面积', '')`). -/
def houseArea (h : HouseInfo) : ℚ :=
  areaContribution (h.area.getD "")

/-- The `total_area` accumulation loop. -/
def totalArea (hs : List HouseInfo) : ℚ :=
  hs.foldl (fun acc h => acc + houseArea h) 0

/-- The `统计信息` dict; field names stand for the script's keys:
`totalHouses` = 总房屋数, `soldHouses` = 已售房屋数, `unsoldHouses` =
未售房屋数, `mortgagedHouses` = 抵押房屋数, `areaSum` = 总面积 (the exact
numeric value; the script renders it as a two-decimal string).  The
wall-clock key 提取时间 is not part of the model. -/
structure Statistics where
  totalHouses : Nat
  soldHouses : Nat
  unsoldHouses : Nat
  mortgagedHouses : Nat
  areaSum : ℚ
deriving Repr, DecidableEq

/-- The result dict of a successful extraction: `基本信息` (`basic`),
`房屋详情` (`details`), `统计信息` (`stats`). -/
structure ExtractionResult where
  basic : BasicInfo
  details : List HouseInfo
  stats : Statistics
deriving Repr, DecidableEq

/-- The successful path of `extract_house_sales_info` on a parsed soup. -/
def extractCore (soup : Soup) : ExtractionResult :=
  let basic := basicFinal soup
  let details := houseDetails soup
  { basic := basic
    details := details
    stats :=
      { totalHouses := details.length
        soldHouses := countSold details
        unsoldHouses := details.length - countSold details
        mortgagedHouses := countMortgaged details
        areaSum := totalArea details } }

/-- `extract_house_sales_info`: reading and parsing the input is modelled
by an `Except`-valued argument (`.error` = any exception while opening,
reading or decoding the file); the surrounding `try`/`except` turns every
such error into a printed diagnostic and the return value `None`. -/
def extract_house_sales_info (input : Except String Soup) : Option ExtractionResult :=
  match input with
  | .error _ => none
  | .ok soup => some (extractCore soup)

/-! ## Saving and the CLI exit status -/

/-- The two output encodings of `save_to_file`. -/
inductive OutFormat where
  | json | txt
deriving Repr, DecidableEq

/-- The destination and format chosen by `save_to_file`'s extension
branching. -/
structure SavePlan where
  path : String
  format : OutFormat
deriving Repr, DecidableEq

/-- The extension branching of `save_to_file`: `.json` and `.txt` are
recognized; anything else falls back to JSON written to the path with
`.json` appended. -/
def savePlan (output_file : String) : SavePlan :=
  if pyEndsWith output_file ".json" then ⟨output_file, .json⟩
  else if pyEndsWith output_file ".txt" then ⟨output_file, .txt⟩
  else ⟨output_file ++ ".json", .json⟩

/-- What `save_to_file` does, observably: either the success message
naming the file written, or the caught-exception diagnostic.  There is no
third (raising) outcome. -/
inductive SaveOutcome where
  | savedTo (path : String)
  | diagnostic (msg : String)
deriving Repr, DecidableEq

/-- `save_to_file`: the file system's response to writing a path is
modelled by `w`; every write error is caught by the surrounding
`try`/`except` and reported as a diagnostic. -/
def save_to_file (w : String → Except String Unit) (_data : ExtractionResult)
    (output_file : String) : SaveOutcome :=
  let plan := savePlan output_file
  match w plan.path with
  | .ok _ => .savedTo plan.path
  | .error e => .diagnostic ("保存文件时发生错误: " ++ e)

/-- The tail of `main` after extraction: on a result, print the summary,
save, and finish with exit status 0 (implicit); on `None`, exit status 1.
The save outcome is carried alongside to show it does not feed the exit
status. -/
def mainRun (data : Option ExtractionResult) (w : String → Except String Unit)
    (output_file : String) : Nat × Option SaveOutcome :=
  match data with
  | some d => (0, some (save_to_file w d output_file))
  | none => (1, none)

/-! ## Definitions following the spec's words (for comparison only) -/

/-- An element (tag) node, as opposed to a text node. -/
def isElemNode : Node → Bool
  | .elem _ _ _ => true
  | .text _ => false

mutual
/-- Modelled from the spec's words for the pairing rule of claim C2:
pairs contributed by one node's subtree when each label may only use its
immediate next sibling element. -/
def nodePairsImmediate : Node → List (String × Option String)
  | .text _ => []
  | .elem _ _ cs => listPairsImmediate cs
/-- Modelled from the spec's words for claim C2: the label is paired with
its **immediate next sibling element** when that element carries the
content marker class, and with nothing otherwise. -/
def listPairsImmediate : NodeList → List (String × Option String)
  | .nil => []
  | .cons c rest =>
      (if isLabelSpan c then
        [(getTextStrip c,
          match rest.toList.find? isElemNode with
          | some n => if isContentSpan n then some (getTextStrip n) else none
          | none => none)]
      else [])
      ++ (nodePairsImmediate c ++ listPairsImmediate rest)
end

/-- The `basic_info` dict predicted by the spec's immediate-sibling
pairing rule. -/
def primaryBasicImmediate (soup : Soup) : BasicInfo :=
  applyPairs {} (listPairsImmediate soup)

/-- Remove `suf` from the end of `s` when it is a suffix, else keep `s`. -/
def dropSuffixStr (s suf : String) : String :=
  if pyEndsWith s suf then ⟨s.toList.take (s.toList.length - suf.toList.length)⟩ else s

/-- Modelled from the spec's words for claim C4: strip the square-meter
suffix if present (suffix position only), parse the remainder, and
contribute zero on parse failure. -/
def specAreaContribution (t : String) : ℚ :=
  if t = "" then 0
  else
    match pyFloatSci (dropSuffixStr t "平方米") with
    | some p => sciToRat p
    | none => 0

/-! ## Concrete documents used in counterexamples and witnesses -/

/-- Build a sibling sequence from a list. -/
def nl (l : List Node) : NodeList :=
  l.foldr .cons .nil

/-- Build an element node with children given as a list. -/
def el (tag : String) (classes : List String) (children : List Node) : Node :=
  .elem tag classes (nl children)

/-- A label span as rendered by the description widget. -/
def labelSpan (t : String) : Node :=
  el "span" ["el-descriptions-item__label"] [.text t]

/-- A content span as rendered by the description widget. -/
def contentSpan (t : String) : Node :=
  el "span" ["el-descriptions-item__content"] [.text t]

/-- A pair `(label text, content text?)` writes key `k` exactly when its
content sibling exists and the label's text matches `k` in the chain. -/
def pairWrites (p : String × Option String) (k : FieldKey) : Bool :=
  p.2.isSome && (fieldOfLabel p.1 == some k)

/-- A data cell of the unit table with its `div.cell` wrapper. -/
def tdCell (t : String) : Node :=
  el "td" ["el-table__cell"] [el "div" ["cell"] [.text t]]

/-- A document whose label span is separated from its content span by an
unmarked span: `find_next_sibling` skips the unmarked span. -/
def ex2soup : Soup :=
  nl [el "div" [] [labelSpan "项目名称", el "span" [] [.text "junk"], contentSpan "远方"]]

/-- The sibling sequence following the label of `ex2soup`. -/
def ex2rest : NodeList :=
  nl [el "span" [] [.text "junk"], contentSpan "远方"]

/-- A document with a single label whose text contains two recognized
field names. -/
def ex5soup : Soup :=
  nl [el "div" [] [labelSpan "项目名称房屋坐落", contentSpan "某处"]]

/-- A document with no basic-info labels and the title
阳光花园商品房销售许可证信息. -/
def ex6soup : Soup :=
  nl [el "html" [] [el "head" [] [el "title" [] [.text "阳光花园商品房销售许可证信息"]]]]

/-- A complete data row: unit 101, area `89.5平方米`, sold, not
mortgaged. -/
def exRow : Node :=
  el "tr" ["el-table__row"] [tdCell "101", tdCell "89.5平方米", tdCell "10000",
    tdCell "已售", tdCell "否"]

/-- A document containing one complete data row. -/
def exTableSoup : Soup :=
  nl [el "table" [] [el "tbody" [] [exRow]]]

/-! ## Helper lemmas -/

lemma getField_setField (b : BasicInfo) (k k' : FieldKey) (v : String) :
    getField (setField b k v) k' = if k = k' then some v else getField b k' := by
  cases k <;> cases k' <;> simp [getField, setField]

lemma getField_applyPair (b : BasicInfo) (p : String × Option String) (k : FieldKey) :
    getField (applyPair b p) k = if pairWrites p k then p.2 else getField b k := by
  obtain ⟨t, ov⟩ := p
  cases ov with
  | none => simp [applyPair, pairWrites]
  | some v =>
      cases hf : fieldOfLabel t with
      | none => simp [applyPair, pairWrites, hf]
      | some k' =>
          by_cases hk : k' = k
        <;> simp [applyPair, pairWrites, hf, hk, getField_setField]

lemma applyPairs_cons (b : BasicInfo) (p : String × Option String)
    (l : List (String × Option String)) :
    applyPairs b (p :: l) = applyPairs (applyPair b p) l := rfl

lemma applyPairs_no_write (k : FieldKey) :
    ∀ (xs : List (String × Option String)) (b : BasicInfo),
      (∀ p ∈ xs, pairWrites p k = false) →
      getField (applyPairs b xs) k = getField b k := by
  intro xs
  induction xs with
  | nil => intro b _; rfl
  | cons p t ih =>
      intro b h
      rw [applyPairs_cons, ih _ (fun q hq => h q (List.mem_cons_of_mem p hq)),
        getField_applyPair, h p (List.mem_cons_self p t)]
      simp

lemma fieldOfLabel_find (t : String) :
    fieldOfLabel t = ((fieldTable.find? fun q => pyIn q.1 t).map Prod.snd) := by
  unfold fieldOfLabel fieldTable
  split_ifs <;> simp_all [List.find?]

lemma find_first_split {α : Type} (p : α → Bool) :
    ∀ (l : List α) (a : α), l.find? p = some a →
      p a = true ∧ ∃ pre post, l = pre ++ a :: post ∧ ∀ m ∈ pre, ¬ p m := by
  intro l
  induction l with
  | nil => intro a h; simp [List.find?] at h
  | cons x xs ih =>
      intro a h
      by_cases hx : p x
      · have hstep : (x :: xs).find? p = some x := by simp [List.find?, hx]
        rw [hstep] at h
        cases h
        exact ⟨hx, [], xs, rfl, by simp⟩
      · have hfx : p x = false := by simpa using hx
        have hstep : (x :: xs).find? p = xs.find? p := by simp [List.find?, hfx]
        rw [hstep] at h
        obtain ⟨hpa, pre, post, hsplit, hpre⟩ := ih a h
        refine ⟨hpa, x :: pre, post, by rw [hsplit]; simp, ?_⟩
        intro m hm
        rcases List.mem_cons.mp hm with rfl | hm2
        · exact hx
        · exact hpre m hm2

lemma totalArea_foldl_from (l : List HouseInfo) :
    ∀ a : ℚ, l.foldl (fun acc h => acc + houseArea h) a = a + totalArea l := by
  induction l with
  | nil => intro a; simp [totalArea]
  | cons h t ih =>
      intro a
      rw [totalArea, List.foldl_cons, List.foldl_cons, ih, ih]
      ring

lemma totalArea_cons (h : HouseInfo) (t : List HouseInfo) :
    totalArea (h :: t) = houseArea h + totalArea t := by
  rw [totalArea, List.foldl_cons, totalArea_foldl_from]
  ring

lemma totalArea_append (l1 l2 : List HouseInfo) :
    totalArea (l1 ++ l2) = totalArea l1 + totalArea l2 := by
  induction l1 with
  | nil => simp [totalArea]
  | cons h t ih => rw [List.cons_append, totalArea_cons, totalArea_cons, ih]; ring

/-! ## Claim theorems -/

/-- C1: for every successful extraction, the statistics satisfy
`unsold_count = total_count - sold_count` and `total_count` equals the
length of the retained unit sequence; consequently
`sold_count + unsold_count = total_count`. -/
theorem c1_stats_invariant (soup : Soup) :
    (extractCore soup).stats.unsoldHouses
      = (extractCore soup).stats.totalHouses - (extractCore soup).stats.soldHouses
    ∧ (extractCore soup).stats.totalHouses = (extractCore soup).details.length
    ∧ (extractCore soup).stats.soldHouses + (extractCore soup).stats.unsoldHouses
      = (extractCore soup).stats.totalHouses := by
  refine ⟨rfl, rfl, ?_⟩
  have hle : countSold (houseDetails soup) ≤ (houseDetails soup).length :=
    List.length_filter_le _ _
  show countSold (houseDetails soup)
      + ((houseDetails soup).length - countSold (houseDetails soup))
      = (houseDetails soup).length
  omega

/-- Witness for C1 at a concrete one-row document. -/
theorem c1_stats_invariant_witness :
    (extractCore exTableSoup).stats.unsoldHouses
      = (extractCore exTableSoup).stats.totalHouses - (extractCore exTableSoup).stats.soldHouses
    ∧ (extractCore exTableSoup).stats.totalHouses = (extractCore exTableSoup).details.length
    ∧ (extractCore exTableSoup).stats.soldHouses + (extractCore exTableSoup).stats.unsoldHouses
      = (extractCore exTableSoup).stats.totalHouses :=
  c1_stats_invariant exTableSoup

/-- C7: extraction never lets a read/parse error escape: an errored input
yields the explicit absent-result signal `none`, and an intact input
yields the complete result. -/
theorem c7_no_unhandled_error :
    (∀ e : String, extract_house_sales_info (.error e) = none)
    ∧ ∀ soup : Soup, extract_house_sales_info (.ok soup) = some (extractCore soup) :=
  ⟨fun _ => rfl, fun _ => rfl⟩

/-- C8: a write error is caught inside `save_to_file` and reported as the
diagnostic outcome; the exit status of `main` is the one already
determined by extraction success and is unchanged by the writer's
behaviour. -/
theorem c8_write_error_contained (d : ExtractionResult) (out : String)
    (w : String → Except String Unit) (e : String)
    (h : w (savePlan out).path = .error e) :
    save_to_file w d out = .diagnostic ("保存文件时发生错误: " ++ e)
    ∧ (mainRun (some d) w out).1 = 0
    ∧ ∀ w' : String → Except String Unit,
        (mainRun (some d) w out).1 = (mainRun (some d) w' out).1 := by
  refine ⟨?_, rfl, fun w' => rfl⟩
  simp [save_to_file, h]

/-- Witness for C8: a writer that always fails with "disk full". -/
theorem c8_write_error_contained_witness :
    save_to_file (fun _ => Except.error "disk full") (extractCore .nil) "report.json"
      = SaveOutcome.diagnostic ("保存文件时发生错误: " ++ "disk full") :=
  (c8_write_error_contained (extractCore .nil) "report.json"
    (fun _ => Except.error "disk full") "disk full" rfl).1

/-- C9: a destination ending in neither `.json` nor `.txt` is not an
error: the JSON format is chosen and written to the path with `.json`
appended. -/
theorem c9_default_extension (out : String)
    (h1 : pyEndsWith out ".json" = false) (h2 : pyEndsWith out ".txt" = false) :
    savePlan out = ⟨out ++ ".json", OutFormat.json⟩
    ∧ ∀ (w : String → Except String Unit) (d : ExtractionResult),
        w (out ++ ".json") = .ok () → save_to_file w d out = .savedTo (out ++ ".json") := by
  have hp : savePlan out = ⟨out ++ ".json", OutFormat.json⟩ := by
    simp [savePlan, h1, h2]
  refine ⟨hp, fun w d hw => ?_⟩
  simp [save_to_file, hp, hw]

/-- Witness for C9 at the unrecognized destination `output.dat`. -/
theorem c9_default_extension_witness :
    savePlan "output.dat" = ⟨"output.dat" ++ ".json", OutFormat.json⟩ :=
  (c9_default_extension "output.dat" (by decide) (by decide)).1

/-- C10: the sold count counts exactly the units whose sale-status field
is literally `已售`, and the mortgaged count exactly those whose
mortgage-status field is literally `是`; a missing field or a strict
superstring is not counted. -/
theorem c10_exact_status_match (soup : Soup) (pre post : List HouseInfo) (h : HouseInfo) :
    (extractCore soup).stats.soldHouses = countSold ((extractCore soup).details)
    ∧ (extractCore soup).stats.mortgagedHouses = countMortgaged ((extractCore soup).details)
    ∧ countSold (pre ++ h :: post)
      = countSold (pre ++ post) + (if h.sold = some "已售" then 1 else 0)
    ∧ countMortgaged (pre ++ h :: post)
      = countMortgaged (pre ++ post) + (if h.mortgage = some "是" then 1 else 0)
    ∧ countSold [{ sold := some "已售出" }] = 0
    ∧ countSold [{ sold := none }] = 0
    ∧ countMortgaged [{ mortgage := some "是的" }] = 0
    ∧ countSold [{ sold := some "已售" }] = 1
    ∧ countMortgaged [{ mortgage := some "是" }] = 1 := by
  refine ⟨rfl, rfl, ?_, ?_, by decide, by decide, by decide, by decide, by decide⟩
  · unfold countSold
    by_cases hs : h.sold = some "已售" <;>
      simp [List.filter_append, List.filter_cons, hs]
    all_goals omega
  · unfold countMortgaged
    by_cases hm : h.mortgage = some "是" <;>
      simp [List.filter_append, List.filter_cons, hm]
    all_goals omega

/-- Witness for C10 at a concrete sold unit inserted into an empty
sequence. -/
theorem c10_exact_status_match_witness :
    countSold ([] ++ { sold := some "已售" } :: [])
      = countSold ([] ++ [])
        + (if ({ sold := some "已售" } : HouseInfo).sold = some "已售" then 1 else 0) :=
  (c10_exact_status_match .nil [] [] { sold := some "已售" }).2.2.1

/-- C2 counterexample: the script pairs a label with the *first* later
sibling span carrying the content marker, not with the immediate next
sibling only — in `ex2soup` an unmarked span sits between label and
content, yet the field is populated from the farther content span, so the
immediate-sibling description is false. -/
theorem c2_counterexample :
    (primaryBasic ex2soup).projectName = some "远方"
    ∧ (primaryBasicImmediate ex2soup).projectName = none
    ∧ ¬ (∀ soup : Soup, primaryBasic soup = primaryBasicImmediate soup) := by
  refine ⟨by decide, by decide, fun hall => ?_⟩
  exact absurd (hall ex2soup) (by decide)

/-- C2 as amended: each label is paired with the first following sibling
carrying the content marker class (any intervening non-matching siblings
are skipped), and a label contributes nothing exactly when no following
sibling carries the marker. -/
theorem c2_first_following_content_sibling (c : Node) (rest : NodeList)
    (hc : isLabelSpan c = true) :
    listPairs (.cons c rest)
      = (getTextStrip c, (rest.toList.find? isContentSpan).map getTextStrip)
          :: (nodePairs c ++ listPairs rest)
    ∧ (rest.toList.find? isContentSpan = none ↔ ∀ n ∈ rest.toList, ¬ isContentSpan n)
    ∧ ∀ n, rest.toList.find? isContentSpan = some n →
        isContentSpan n = true
        ∧ ∃ pre post, rest.toList = pre ++ n :: post ∧ ∀ m ∈ pre, ¬ isContentSpan m := by
  refine ⟨by simp [listPairs, hc], List.find?_eq_none, ?_⟩
  intro n hn
  exact find_first_split _ _ _ hn

/-- Witness for the amended C2 at the label and sibling sequence of
`ex2soup`. -/
theorem c2_first_following_content_sibling_witness :
    listPairs (.cons (labelSpan "项目名称") ex2rest)
      = (getTextStrip (labelSpan "项目名称"),
          (ex2rest.toList.find? isContentSpan).map getTextStrip)
        :: (nodePairs (labelSpan "项目名称") ++ listPairs ex2rest) :=
  (c2_first_following_content_sibling (labelSpan "项目名称") ex2rest (by decide)).1

/-- C3: a marked table row is represented in the unit sequence iff it has
at least 5 marker cells and a non-empty (stripped) unit identifier in
cell 0; the retained sequence arises by dropping every other row whole. -/
theorem c3_row_retention (row : Node) (soup : Soup) :
    ((rowToHouse row).isSome ↔
      5 ≤ (rowCells row).length ∧ ∃ s, cellText (rowCells row) 0 = some s ∧ s ≠ "")
    ∧ houseDetails soup = ((listDescendants soup).filter isTableRow).filterMap rowToHouse := by
  refine ⟨?_, rfl⟩
  unfold rowToHouse
  by_cases h5 : 5 ≤ (rowCells row).length
  · cases hr : cellText (rowCells row) 0 with
    | none => simp [h5, hr]
    | some s =>
        by_cases hs : s = "" <;> simp [h5, hr, hs]
  · simp [h5]

/-- Witness for C3 at the complete concrete row `exRow`. -/
theorem c3_row_retention_witness :
    (rowToHouse exRow).isSome ↔
      5 ≤ (rowCells exRow).length ∧ ∃ s, cellText (rowCells exRow) 0 = some s ∧ s ≠ "" :=
  (c3_row_retention exRow exTableSoup).1

/-- C4 counterexample: the script tests for the marker 平方米 anywhere
and deletes every occurrence, not only a trailing suffix: on the area
text `平方米89.5` the code contributes `89.5`, while suffix-stripping as
the claim words it would fail to parse and contribute `0`. -/
theorem c4_counterexample :
    areaContribution "平方米89.5" = 179 / 2
    ∧ specAreaContribution "平方米89.5" = 0
    ∧ ¬ (∀ t, areaContribution t = specAreaContribution t) := by
  have h1 : areaContribution "平方米89.5" = 179 / 2 := by
    norm_num [areaContribution, sciToRat,
      show pyIn "平方米" "平方米89.5" = true from by decide,
      show pyFloatSci (pyRemoveAll "平方米" "平方米89.5") = some (895, -1) from by decide,
      show ("平方米89.5" = "") = False from by simp]
  have h2 : specAreaContribution "平方米89.5" = 0 := by
    simp [specAreaContribution,
      show pyFloatSci (dropSuffixStr "平方米89.5" "平方米") = none from by decide]
  refine ⟨h1, h2, fun hall => ?_⟩
  rw [hall "平方米89.5", h2] at h1
  norm_num at h1

/-- C4 as amended: each unit's contribution deletes every occurrence of
the marker 平方米 (checked by containment anywhere, not only as a
suffix) before parsing; a failed parse contributes zero and the
accumulation continues over the rest of the sequence; `89.5平方米`
contributes `89.5` and `abc` contributes `0`. -/
theorem c4_area_parsing (pre post : List HouseInfo) (h : HouseInfo) :
    totalArea (pre ++ h :: post) = totalArea pre + houseArea h + totalArea post
    ∧ areaContribution "89.5平方米" = 179 / 2
    ∧ areaContribution "abc" = 0
    ∧ houseArea { area := none } = 0 := by
  refine ⟨?_, ?_, ?_, ?_⟩
  · rw [totalArea_append, totalArea_cons]; ring
  · norm_num [areaContribution, sciToRat,
      show pyIn "平方米" "89.5平方米" = true from by decide,
      show pyFloatSci (pyRemoveAll "平方米" "89.5平方米") = some (895, -1) from by decide,
      show ("89.5平方米" = "") = False from by simp]
  · simp [areaContribution,
      show pyIn "平方米" "abc" = false from by decide,
      show pyFloatSci "abc" = none from by decide]
  · simp [houseArea, areaContribution]

/-- Witness for the amended C4 at a concrete singleton sequence. -/
theorem c4_area_parsing_witness :
    totalArea ([] ++ { area := some "89.5平方米" } :: [])
      = totalArea [] + houseArea { area := some "89.5平方米" } + totalArea [] :=
  (c4_area_parsing [] [] { area := some "89.5平方米" }).1

/-- C5 counterexample: matching is substring containment, but the
`elif` chain lets each label populate at most one field — the first, in
chain order, whose name it contains.  The label 项目名称房屋坐落 contains
房屋坐落, yet 房屋坐落 is left unpopulated. -/
theorem c5_counterexample :
    pyIn "房屋坐落" "项目名称房屋坐落" = true
    ∧ (primaryBasic ex5soup).location = none
    ∧ (primaryBasic ex5soup).projectName = some "某处"
    ∧ ¬ (∀ (t needle : String) (k : FieldKey),
          (needle, k) ∈ fieldTable → pyIn needle t = true → fieldOfLabel t = some k) := by
  refine ⟨by decide, by decide, by decide, fun hall => ?_⟩
  have hbad := hall "项目名称房屋坐落" "房屋坐落" .location (by decide) (by decide)
  exact absurd hbad (by decide)

/-- C5 as amended: a label populates exactly the first key, in the fixed
chain order of `fieldTable`, whose name is contained in its text
(substring matching, so the colon-suffixed 项目名称: matches), and when
several labels write the same key the last one in document order wins. -/
theorem c5_label_matching (t v : String) (xs : List (String × Option String))
    (b : BasicInfo) (k : FieldKey)
    (h1 : fieldOfLabel t = some k)
    (h2 : ∀ p ∈ xs, pairWrites p k = false) :
    getField (applyPairs b ((t, some v) :: xs)) k = some v
    ∧ fieldOfLabel t = ((fieldTable.find? fun q => pyIn q.1 t).map Prod.snd) := by
  refine ⟨?_, fieldOfLabel_find t⟩
  rw [applyPairs_cons, applyPairs_no_write k xs _ h2, getField_applyPair]
  have hw : pairWrites (t, some v) k = true := by simp [pairWrites, h1]
  rw [hw]
  simp

/-- Witness for the amended C5 at the colon-suffixed label 项目名称:. -/
theorem c5_label_matching_witness :
    getField (applyPairs {} [("项目名称:", some "示例项目")]) FieldKey.projectName
      = some "示例项目"
    ∧ fieldOfLabel "项目名称:"
      = ((fieldTable.find? fun q => pyIn q.1 "项目名称:").map Prod.snd) :=
  c5_label_matching "项目名称:" "示例项目" [] {} .projectName (by decide) (by simp)

/-- C6: the title fallback fires only when the primary extraction left
the project name missing; it then requires the fixed phrase to occur in
the title text and stores the stripped remainder after deleting the
phrase, provided that remainder is non-empty.  A `basic_info` whose
project name is already populated is never changed by the fallback. -/
theorem c6_title_fallback (soup : Soup) (tt : String)
    (h1 : (primaryBasic soup).projectName = none)
    (h2 : titleText soup = some tt)
    (h3 : pyIn "商品房销售许可证信息" tt = true)
    (h4 : pyStrip (pyRemoveAll "商品房销售许可证信息" tt) ≠ "") :
    (basicFinal soup).projectName = some (pyStrip (pyRemoveAll "商品房销售许可证信息" tt))
    ∧ ∀ (soup2 : Soup) (b : BasicInfo) (v : String),
        fallbackTitle soup2 { b with projectName := some v }
          = { b with projectName := some v } := by
  constructor
  · simp [basicFinal, fallbackTitle, h1, h2, h3, h4]
  · intro soup2 b v
    simp [fallbackTitle]

/-- Witness for C6 at the label-free document titled
阳光花园商品房销售许可证信息: the derived project name is 阳光花园. -/
theorem c6_title_fallback_witness :
    (basicFinal ex6soup).projectName
      = some (pyStrip (pyRemoveAll "商品房销售许可证信息" "阳光花园商品房销售许可证信息"))
    ∧ pyStrip (pyRemoveAll "商品房销售许可证信息" "阳光花园商品房销售许可证信息")
      = "阳光花园" :=
  ⟨(c6_title_fallback ex6soup "阳光花园商品房销售许可证信息"
      (by decide) (by decide) (by decide) (by decide)).1,
   by decide⟩
